import Mathlib

/-
Shallow embedding of RNb-NeuS2-main/scripts/preprocess.py.

Numbers are modelled as rationals, images as functions from pixel
coordinates to natural-number channel values together with a dtype tag,
and the filesystem as an explicit environment record.  Lines of the
camera text file are modelled by the observations the parser makes of
them: blankness, comment marker, the magic header string, and the result
of float/int/token parsing.
-/

namespace Preprocess

abbrev Vec3 := Fin 3 → ℚ
abbrev Mat3 := Fin 3 → Fin 3 → ℚ
abbrev Mat4 := Fin 4 → Fin 4 → ℚ

/-- Matrix-vector product R @ C for 3x3 times 3-vector (numpy matmul). -/
def mulVec3 (M : Mat3) (v : Vec3) : Vec3 :=
  fun i => M i 0 * v 0 + M i 1 * v 1 + M i 2 * v 2

/-- Transpose of a 3x3 matrix (numpy .T). -/
def transpose3 (M : Mat3) : Mat3 := fun i j => M j i

/-- Pointwise negation of a 3-vector. -/
def neg3 (v : Vec3) : Vec3 := fun i => -(v i)

def zero3 : Vec3 := fun _ => 0

/-- The 4x4 identity matrix, np.eye(4). -/
def eye4 : Mat4 := fun i j => if i = j then 1 else 0

/-- Start from np.eye(4), overwrite the top-left 3x3 block with R and
the top three entries of the last column with t. -/
def withBlocks (R : Mat3) (t : Vec3) : Mat4 := fun i j =>
  if hi : (i : ℕ) < 3 then
    if hj : (j : ℕ) < 3 then R ⟨i, hi⟩ ⟨j, hj⟩ else t ⟨i, hi⟩
  else eye4 i j

/-- np.eye(4) with the top-left 3x3 block overwritten by K. -/
def embed4 (K : Mat3) : Mat4 := withBlocks K zero3

/-- Determinant of a 3x3 matrix. -/
def det3 (A : Mat3) : ℚ :=
  A 0 0 * (A 1 1 * A 2 2 - A 1 2 * A 2 1)
    - A 0 1 * (A 1 0 * A 2 2 - A 1 2 * A 2 0)
    + A 0 2 * (A 1 0 * A 2 1 - A 1 1 * A 2 0)

/-- Determinant of a 4x4 matrix, cofactor expansion along the last row. -/
def det4 (A : Mat4) : ℚ :=
  -(A 3 0 * det3 (fun i j => A i.castSucc (Fin.succAbove 0 j)))
    + A 3 1 * det3 (fun i j => A i.castSucc (Fin.succAbove 1 j))
    - A 3 2 * det3 (fun i j => A i.castSucc (Fin.succAbove 2 j))
    + A 3 3 * det3 (fun i j => A i.castSucc (Fin.succAbove 3 j))

/-- A 3-vector given by its entries. -/
def vec3 (a b c : ℚ) : Vec3 := fun i =>
  if i = 0 then a else if i = 1 then b else c

/-- A 3x3 matrix given by its rows. -/
def rows3 (r0 r1 r2 : Vec3) : Mat3 := fun i =>
  if i = 0 then r0 else if i = 1 then r1 else r2

/-- The 3x3 intrinsic matrix K built at preprocess.py:104-108. -/
def mkK (f px py : ℚ) : Mat3 :=
  rows3 (vec3 f 0 px) (vec3 0 f py) (vec3 0 0 1)

/-- The 4x4 intrinsic of preprocess.py:111-112: np.eye(4) with K in the
top-left block. -/
def mkIntrinsic (f px py : ℚ) : Mat4 := embed4 (mkK f px py)

/-- The 4x4 pose of preprocess.py:117-119: rotation block R and
translation block -R @ C. -/
def mkPose (R : Mat3) (C : Vec3) : Mat4 := withBlocks R (neg3 (mulVec3 R C))

/-!  Camera file lines.  A line is modelled by what the parser can
observe of it. -/

structure Line where
  isBlank : Bool      -- strip() is empty
  isComment : Bool    -- startswith a hash character
  isMarker : Bool     -- strip() equals the header marker string
  asFloat : Option ℚ  -- float(strip()), none when that raises
  asInt : Option ℤ    -- int(line), none when that raises
  toks : Option (List ℚ)  -- list(map(float, strip().split())), none when that raises
deriving DecidableEq

def lineToks (lines : List Line) (k : ℕ) : Option (List ℚ) :=
  (lines.get? k).bind (·.toks)

/-- Numpy row assignment R[i] = arr for a 3-wide row: a 3-element array
is taken as is, a 1-element array broadcasts, anything else raises. -/
def rowAssign : List ℚ → Option Vec3
  | [a] => some (vec3 a a a)
  | [a, b, c] => some (vec3 a b c)
  | _ => none

/-- A token list interpreted as a 3-vector; R @ C raises unless C has
exactly three entries. -/
def vec3OfToks : List ℚ → Option Vec3
  | [a, b, c] => some (vec3 a b c)
  | _ => none

/-- The rotation matrix read from the three lines at idx+8..idx+10
(preprocess.py:91-94). -/
def rotAt (lines : List Line) (idx : ℕ) : Option Mat3 :=
  match (lineToks lines (idx + 8)).bind rowAssign,
        (lineToks lines (idx + 9)).bind rowAssign,
        (lineToks lines (idx + 10)).bind rowAssign with
  | some r0, some r1, some r2 => some (rows3 r0 r1 r2)
  | _, _, _ => none

/-- The camera-position vector re-read at offset current-7 where current
is idx+11, the index just after the rotation block (preprocess.py:97-98). -/
def posAt (lines : List Line) (idx : ℕ) : Option Vec3 :=
  (lineToks lines (idx + 11 - 7)).bind vec3OfToks

/-- The principal point line at idx+3: exactly two float tokens. -/
def ppAt (lines : List Line) (idx : ℕ) : Option (ℚ × ℚ) :=
  (lineToks lines (idx + 3)).bind fun l =>
    match l with
    | [a, b] => some (a, b)
    | _ => none

/-- One attempt at parsing the camera record starting at line idx
(the body of the try block, preprocess.py:71-120).  On failure the
error carries the focal length and intrinsic that were already appended
before the exception was raised. -/
def tryRecord (lines : List Line) (idx : ℕ) :
    Except (Option ℚ × Option Mat4) (ℚ × Mat4 × Mat4) :=
  match (lines.get? (idx + 2)).bind (·.asFloat) with
  | none => .error (none, none)
  | some focal =>
    match ppAt lines idx with
    | none => .error (some focal, none)
    | some (px, py) =>
      match rotAt lines idx with
      | none => .error (some focal, none)
      | some R =>
        match lineToks lines (idx + 11 - 7) with
        | none => .error (some focal, none)
        | some ctoks =>
          match vec3OfToks ctoks with
          | none => .error (some focal, some (mkIntrinsic focal px py))
          | some C => .ok (focal, mkIntrinsic focal px py, mkPose R C)

structure ParsedCams where
  intrinsics : List Mat4
  poses : List Mat4
  focals : List ℚ
deriving DecidableEq

/-- The while loop of preprocess.py:65-124 with explicit fuel; each
iteration consumes one unit of fuel, and fuel equal to the number of
lines is always sufficient because the index strictly increases. -/
def parseFrom (lines : List Line) : ℕ → ℕ → ParsedCams → ParsedCams
  | 0, _, acc => acc
  | fuel + 1, idx, acc =>
    match lines.get? idx with
    | none => acc
    | some l =>
      if l.isBlank || l.isComment then
        parseFrom lines fuel (idx + 1) acc
      else
        match tryRecord lines idx with
        | .ok (f, intr, pose) =>
          parseFrom lines fuel (idx + 14)
            ⟨acc.intrinsics ++ [intr], acc.poses ++ [pose], acc.focals ++ [f]⟩
        | .error (fo, io) =>
          ⟨acc.intrinsics ++ io.toList, acc.poses, acc.focals ++ fo.toList⟩

/-- Scan for the header marker (preprocess.py:57-62); when found, int()
of the following line may raise (uncaught), otherwise the start index
is two past the marker.  No marker leaves the start index at 0. -/
def findStartAux : List Line → ℕ → Except Unit (Option ℕ)
  | [], _ => .ok none
  | l :: rest, i =>
    if l.isMarker then
      match rest with
      | [] => .error ()
      | l2 :: _ =>
        match l2.asInt with
        | none => .error ()
        | some _ => .ok (some (i + 2))
    else findStartAux rest (i + 1)

def findStart (lines : List Line) : Except Unit ℕ :=
  (findStartAux lines 0).map (fun o => o.getD 0)

/-- parse_camera_parameters up to but excluding the post-loop numpy
conversions: header scan then the parse loop. -/
def parse_camera_parameters (lines : List Line) : Except Unit ParsedCams :=
  match findStart lines with
  | .error _ => .error ()
  | .ok s => .ok (parseFrom lines lines.length s ⟨[], [], []⟩)

inductive DsErr | header | linalg | index | count
deriving DecidableEq

/-- Dataset construction: parse, then np.linalg.inv of the stacked
intrinsics (raises on an empty stack or a singular member), then
focal_lengths[0], then the camera-count check of preprocess.py:132-133. -/
def datasetInit (lines : List Line) (nImages : ℕ) : Except DsErr ParsedCams :=
  match parse_camera_parameters lines with
  | .error _ => .error .header
  | .ok out =>
    if out.intrinsics = [] then .error .linalg
    else if out.intrinsics.any (fun A => decide (det4 A = 0)) then .error .linalg
    else if out.focals = [] then .error .index
    else if out.poses.length ≠ nImages then .error .count
    else .ok out

/-!  Encodings of concrete camera files. -/

/-- A camera record as laid out in the fourteen lines the parser
consumes per record. -/
structure CamRec where
  focal : ℚ
  px : ℚ
  py : ℚ
  T : ℚ × ℚ × ℚ   -- the translation line, offset 4, the one re-read at current-7
  C : ℚ × ℚ × ℚ   -- the camera-position line, offset 5, never read back
  R0 : ℚ × ℚ × ℚ
  R1 : ℚ × ℚ × ℚ
  R2 : ℚ × ℚ × ℚ

/-- A line holding no parsable numeric payload, such as a filename. -/
def dummyLine : Line :=
  { isBlank := false, isComment := false, isMarker := false,
    asFloat := none, asInt := none, toks := none }

/-- A line whose stripped text is a single float. -/
def floatLine (q : ℚ) : Line :=
  { isBlank := false, isComment := false, isMarker := false,
    asFloat := some q, asInt := none, toks := some [q] }

/-- A line of two or more whitespace-separated floats. -/
def toksLine (l : List ℚ) : Line :=
  { isBlank := false, isComment := false, isMarker := false,
    asFloat := none, asInt := none, toks := some l }

/-- The header marker line; it starts with a hash. -/
def markerLine : Line :=
  { isBlank := false, isComment := true, isMarker := true,
    asFloat := none, asInt := none, toks := none }

/-- The camera-count line following the marker. -/
def countLine (n : ℤ) : Line :=
  { isBlank := false, isComment := false, isMarker := false,
    asFloat := some n, asInt := some n, toks := some [(n : ℚ)] }

def tripleToks : ℚ × ℚ × ℚ → List ℚ
  | (a, b, c) => [a, b, c]

def tripleVec : ℚ × ℚ × ℚ → Vec3
  | (a, b, c) => vec3 a b c

/-- The fourteen lines of one well-formed record in file order:
filename, second filename, focal, principal point, translation,
camera position, axis-angle, quaternion, three rotation rows, and
three distortion/EXIF lines. -/
def recordLines (r : CamRec) : List Line :=
  [dummyLine, dummyLine,
   floatLine r.focal,
   toksLine [r.px, r.py],
   toksLine (tripleToks r.T),
   toksLine (tripleToks r.C),
   dummyLine, dummyLine,
   toksLine (tripleToks r.R0),
   toksLine (tripleToks r.R1),
   toksLine (tripleToks r.R2),
   dummyLine, dummyLine, dummyLine]

def bodyOf (recs : List CamRec) : List Line := (recs.map recordLines).flatten

/-- A fully well-formed cameras_v2.txt: marker, count, then the records. -/
def wellFormedFile (recs : List CamRec) : List Line :=
  markerLine :: countLine recs.length :: bodyOf recs

def rotOf (r : CamRec) : Mat3 := rows3 (tripleVec r.R0) (tripleVec r.R1) (tripleVec r.R2)

/-- The intrinsic the parser produces for a well-formed record. -/
def recIntr (r : CamRec) : Mat4 := mkIntrinsic r.focal r.px r.py

/-- The pose the parser produces for a well-formed record; note the
position vector is the one read back at offset current-7, which is the
translation line of the record. -/
def recPose (r : CamRec) : Mat4 := mkPose (rotOf r) (tripleVec r.T)

/-!  Images.  An image is a dtype tag, a shape (height, width, and an
optional channel count, none for a 2-D array), and a pixel function;
for 2-D arrays the value at (i, j) is read at channel index 0. -/

inductive Dtype | u8 | u16 | f64
deriving DecidableEq

structure Img where
  h : ℕ
  w : ℕ
  numch : Option ℕ
  dt : Dtype
  px : ℕ → ℕ → ℕ → ℕ

/-- An image whose pixels all hold the same value. -/
def constImg (h w : ℕ) (numch : Option ℕ) (dt : Dtype) (v : ℕ) : Img :=
  ⟨h, w, numch, dt, fun _ _ _ => v⟩

/-- img[:, :, :3]; raises on a 2-D array (too many indices). -/
def slice3 (a : Img) : Option Img :=
  match a.numch with
  | none => none
  | some c => some { a with numch := some (min c 3) }

/-- msk[:, :, 0]: collapse a 3-D array to its channel 0. -/
def channel0 (m : Img) : Img :=
  { m with numch := none, px := fun i j _ => m.px i j 0 }

/-- Dtype of a python int scalar under numpy value-based casting. -/
def scalarDtype (s : ℕ) : Dtype := if s < 256 then .u8 else .u16

def promoteDt : Dtype → Dtype → Dtype
  | .f64, _ => .f64
  | _, .f64 => .f64
  | .u16, _ => .u16
  | _, .u16 => .u16
  | .u8, .u8 => .u8

/-- Wrap-around of an out-of-range value stored in an integer dtype. -/
def wrapDt : Dtype → ℕ → ℕ
  | .u8, v => v % 256
  | .u16, v => v % 65536
  | .f64, v => v

/-- np.where(a > thr, 1.0, 0.0): an elementwise float64 indicator. -/
def npWhereGt (a : Img) (thr : ℕ) : Img :=
  { a with dt := .f64, px := fun i j _ => if thr < a.px i j 0 then 1 else 0 }

/-- Multiplication of an array by a python int scalar, with numpy
value-based dtype promotion and integer wrap-around. -/
def npMulScalar (a : Img) (s : ℕ) : Img :=
  let d := promoteDt a.dt (scalarDtype s)
  { a with dt := d, px := fun i j c => wrapDt d (a.px i j c * s) }

/-- arr.astype(np.uint16). -/
def astypeU16 (a : Img) : Img :=
  { a with dt := .u16, px := fun i j c => a.px i j c % 65536 }

/-- np.ones_like(a). -/
def npOnesLike (a : Img) : Img := { a with px := fun _ _ _ => 1 }

/-- The mask pipeline of preprocess.py:192-200 (and 202-210): collapse
to channel 0 when 3-D, threshold strictly at 125 for uint8 input and at
30000 otherwise, multiply the 0/1 indicator by 65535 and cast to
uint16. -/
def maskPipeline (m0 : Img) : Img :=
  let m1 := if m0.numch.isSome then channel0 m0 else m0
  let thr : ℕ := if m1.dt = .u8 then 125 else 30000
  astypeU16 (npMulScalar (npWhereGt m1 thr) 65535)

/-- The synthesized albedo of preprocess.py:190:
(np.ones_like(img_normal) * (2**16 - 1)).astype(np.uint16). -/
def whiteAlbedo (n : Img) : Img := astypeU16 (npMulScalar (npOnesLike n) 65535)

/-- Rescaling of a uint8 image to the 16-bit range
(preprocess.py:213-216), with the float arithmetic carried out in ℚ
and the cast truncating. -/
def rescale8 (a : Img) : Img :=
  if a.dt = .u8 then
    { a with dt := .u16,
             px := fun i j c => (((a.px i j c : ℚ) / 255) * 65535).floor.toNat }
  else a

/-- np.concatenate([a, m[:, :, np.newaxis]], axis=-1) for a 3-D a and a
2-D m: raises unless heights and widths agree. -/
def addChannel (a : Img) (m : Img) : Option Img :=
  match a.numch with
  | none => none
  | some c =>
    if a.h = m.h ∧ a.w = m.w then
      some { h := a.h, w := a.w, numch := some (c + 1),
             dt := promoteDt a.dt m.dt,
             px := fun i j k => if k < c then a.px i j k else m.px i j 0 }
    else none

/-- p[:, :, 0:k]: keep the first k channels of a 3-D array. -/
def takeChannels (p : Img) (k : ℕ) : Img :=
  { p with numch := some (min (p.numch.getD 0) k) }

/-- p[:, :, k]: extract channel k of a 3-D array as a 2-D array. -/
def channelAt (p : Img) (k : ℕ) : Img :=
  { p with numch := none, px := fun i j _ => p.px i j k }

/-!  The converter NeuS_to_NeuS2 as a function from an explicit
filesystem environment to a list of file-write effects and either an
error or the emitted manifest. -/

inductive SrcDir | mask | normal | albedo | certainty
deriving DecidableEq

structure Env where
  cameraLines : List Line
  maskFiles : List String
  normalFiles : List String
  albedoFiles : Option (List String)      -- none when the albedo directory is absent
  certaintyFiles : Option (List String)   -- none when the confidence directory is absent
  readImg : SrcDir → String → Option Img  -- none models a failed cv2.imread

/-- Lexicographic comparison of character lists by code point, the
order python string comparison uses. -/
def charsLt : List Char → List Char → Bool
  | [], [] => false
  | [], _ :: _ => true
  | _ :: _, [] => false
  | a :: as, b :: bs =>
    if a < b then true else if b < a then false else charsLt as bs

def nameLt (a b : String) : Bool := charsLt a.data b.data

/-- Ascending insertion into a sorted list of names. -/
def insertName (s : String) : List String → List String
  | [] => [s]
  | t :: ts => if nameLt s t then s :: t :: ts else t :: insertName s ts

/-- python sorted() on a directory listing. -/
def sortNames (l : List String) : List String := l.foldr insertName []

/-- Reversed-prefix test used to implement the suffix test. -/
def revIsStart : List Char → List Char → Bool
  | _, [] => true
  | [], _ :: _ => false
  | a :: as, b :: bs => a == b && revIsStart as bs

/-- Does the name end with the given suffix, as in glob *.png. -/
def nameEndsWith (s t : String) : Bool :=
  revIsStart s.data.reverse t.data.reverse

/-- Count of the files matched by glob mask/*.png. -/
def pngCount (env : Env) : ℕ :=
  (env.maskFiles.filter (fun s => nameEndsWith s ".png")).length

def maskListing (env : Env) : List String := sortNames env.maskFiles

def normalListing (env : Env) : List String := sortNames env.normalFiles

/-- sorted(os.listdir) of the albedo directory, falling back to the
normal directory when it is absent (preprocess.py:148-151). -/
def albedoListing (env : Env) : List String :=
  sortNames (env.albedoFiles.getD env.normalFiles)

/-- sorted(os.listdir) of the confidence directory, falling back to the
mask directory when it is absent (preprocess.py:155-158). -/
def certListing (env : Env) : List String :=
  sortNames (env.certaintyFiles.getD env.maskFiles)

/-- Reading the confidence image falls back to the mask directory when
the confidence directory is absent. -/
def readCert (env : Env) (name : String) : Option Img :=
  match env.certaintyFiles with
  | some _ => env.readImg .certainty name
  | none => env.readImg .mask name

inductive Eff
  | imgWrite (path : String) (img : Img)
  | jsonWrite

structure Frame where
  albedo_path : String
  normal_path : String
  transform_matrix : Mat4
  intrinsic_matrix : Mat4

structure Manifest where
  w : ℕ
  h : ℕ
  aabb_scale : ℚ
  scale : ℚ
  offset : List ℚ
  from_na : Bool
  n2w : Mat4
  frames : List Frame

/-- The body of the per-view loop (preprocess.py:176-224) for view i:
look up the four listing entries, read and slice the images, run the
mask pipelines, rescale, pack, and write.  The effect list carries the
writes issued before any exception. -/
def processView (env : Env) (i : ℕ) : List Eff × Except Unit (ℕ × ℕ) :=
  match (albedoListing env).get? i, (normalListing env).get? i,
        (maskListing env).get? i, (certListing env).get? i with
  | some aName, some nName, some mName, some cName =>
    (match (env.readImg .normal nName).bind slice3 with
     | none => ([], .error ())
     | some imgN =>
       let albedoRes : Option Img :=
         match env.albedoFiles with
         | some _ => (env.readImg .albedo aName).bind slice3
         | none => some (whiteAlbedo imgN)
       match albedoRes with
       | none => ([], .error ())
       | some imgA =>
         match env.readImg .mask mName with
         | none => ([], .error ())
         | some m0 =>
           let msk := maskPipeline m0
           match readCert env cName with
           | none => ([], .error ())
           | some c0 =>
             let cert := maskPipeline c0
             let imgA2 := rescale8 imgA
             let imgN2 := rescale8 imgN
             match addChannel imgA2 cert with
             | none => ([], .error ())
             | some packedA =>
               match addChannel imgN2 msk with
               | none => ([Eff.imgWrite ("albedos/" ++ aName) packedA], .error ())
               | some packedN =>
                 ([Eff.imgWrite ("albedos/" ++ aName) packedA,
                   Eff.imgWrite ("normals/" ++ nName) packedN],
                  .ok (packedN.h, packedN.w)))
  | _, _, _, _ => ([], .error ())

/-- The view loop over indices 0..n-1, threading the write effects and
the last assigned (H, W); none models the unbound state before the
first iteration. -/
def viewsLoop (env : Env) : ℕ → List Eff × Except Unit (Option (ℕ × ℕ))
  | 0 => ([], .ok none)
  | n + 1 =>
    match viewsLoop env n with
    | (effs, .error e) => (effs, .error e)
    | (effs, .ok _hw) =>
      match processView env n with
      | (effs2, .error _) => (effs ++ effs2, .error ())
      | (effs2, .ok (h, w)) => (effs ++ effs2, .ok (some (h, w)))

/-- One entry of the frames loop (preprocess.py:251-263). -/
def frameAt (albL normL : List String) (intrs poses : List Mat4) (i : ℕ) :
    Except Unit Frame :=
  match albL.get? i, normL.get? i, intrs.get? i, poses.get? i with
  | some a, some b, some ix, some p =>
    .ok ⟨"albedos/" ++ a, "normals/" ++ b, p, ix⟩
  | _, _, _, _ => .error ()

/-- The frames list built by appending one frame per index below n. -/
def framesUpTo (albL normL : List String) (intrs poses : List Mat4) :
    ℕ → Except Unit (List Frame)
  | 0 => .ok []
  | n + 1 =>
    match framesUpTo albL normL intrs poses n with
    | .error e => .error e
    | .ok fs =>
      match frameAt albL normL intrs poses n with
      | .error e => .error e
      | .ok f => .ok (fs ++ [f])

inductive RErr
  | ds (e : DsErr)  -- raised inside Dataset construction
  | view            -- exception inside the per-view loop
  | name            -- W, H unbound because the loop never ran
  | n2w             -- scale_mats_np[0] on an empty stack
  | assert          -- the camera-count assert at preprocess.py:250
  | frame           -- an index error inside the frames loop

/-- The tail of NeuS_to_NeuS2 after the Dataset has been constructed:
the per-view loop, the global output fields, the assert, the frames
loop, and the final json dump. -/
def runAfterData (env : Env) (cams : ParsedCams) :
    List Eff × Except RErr Manifest :=
  let n := (maskListing env).length
  match viewsLoop env n with
  | (effs, .error _) => (effs, .error .view)
  | (effs, .ok none) => (effs, .error .name)
  | (effs, .ok (some (hh, ww))) =>
    if pngCount env = 0 then (effs, .error .n2w)
    else if n ≠ cams.intrinsics.length then (effs, .error .assert)
    else
      match framesUpTo (albedoListing env) (normalListing env)
          cams.intrinsics cams.poses n with
      | .error _ => (effs, .error .frame)
      | .ok frames =>
        let m : Manifest :=
          ⟨ww, hh, 1, 1/2, [1/2, 1/2, 1/2], true, eye4, frames⟩
        (effs ++ [Eff.jsonWrite], .ok m)

/-- NeuS_to_NeuS2: construct the Dataset (which parses the camera file
and checks the camera count against the mask image count) and then run
the repacker. -/
def NeuS_to_NeuS2 (env : Env) : List Eff × Except RErr Manifest :=
  match datasetInit env.cameraLines (pngCount env) with
  | .error e => ([], .error (.ds e))
  | .ok cams => runAfterData env cams

/-!  The projection-matrix converter.  cv2.decomposeProjectionMatrix is
external; load_K_Rt_from_P is modelled as a function of the
decomposition results K, R and the homogeneous camera center t. -/

/-- load_K_Rt_from_P (preprocess.py:11-26) applied to the outputs of the
projection-matrix decomposition: normalize K by K[2,2], embed it into a
4x4 identity-augmented intrinsic, and build the pose from the
transposed rotation and the dehomogenized center t[:3]/t[3]. -/
def load_K_Rt_from_P (Kd Rd : Mat3) (td : Fin 4 → ℚ) : Mat4 × Mat4 :=
  let K : Mat3 := fun i j => Kd i j / Kd 2 2
  let intrinsics := embed4 K
  let pose := withBlocks (transpose3 Rd) (fun i => td i.castSucc / td 3)
  (intrinsics, pose)

/-- M[:3, :3] of a 4x4 matrix. -/
def block3 (M : Mat4) : Mat3 := fun i j => M i.castSucc j.castSucc

/-- M[:3, 3] of a 4x4 matrix. -/
def col3 (M : Mat4) : Vec3 := fun i => M i.castSucc 3

/-- The K entry appended to the output JSON for one view
(preprocess.py:284). -/
def emitViewK (Kd Rd : Mat3) (td : Fin 4 → ℚ) : Mat3 :=
  block3 (load_K_Rt_from_P Kd Rd td).1

/-- The R entry appended to the output JSON for one view
(preprocess.py:282): RT[:3, :3].T. -/
def emitViewR (Kd Rd : Mat3) (td : Fin 4 → ℚ) : Mat3 :=
  transpose3 (block3 (load_K_Rt_from_P Kd Rd td).2)

/-- The T entry appended to the output JSON for one view
(preprocess.py:283): -RT[:3, :3].T @ RT[:3, [3]]. -/
def emitViewT (Kd Rd : Mat3) (td : Fin 4 → ℚ) : Vec3 :=
  neg3 (mulVec3 (transpose3 (block3 (load_K_Rt_from_P Kd Rd td).2))
    (col3 (load_K_Rt_from_P Kd Rd td).2))

end Preprocess

namespace Preprocess


/-- A record used to instantiate the parser theorems. -/
def sampleRec : CamRec :=
  { focal := 5, px := 2, py := 3, T := (7, 8, 9), C := (10, 11, 12),
    R0 := (1, 0, 0), R1 := (0, 1, 0), R2 := (0, 0, 1) }

/-- Decomposition inputs used for the C4 counterexample. -/
def npzKd : Mat3 := mkK 1 0 0

def npzRd : Mat3 := rows3 (vec3 0 1 0) (vec3 0 0 0) (vec3 0 0 0)

def npzTd : Fin 4 → ℚ := fun _ => 1

/-- The parse result appended for a list of well-formed records. -/
def recOut (recs : List CamRec) (acc : ParsedCams) : ParsedCams :=
  ⟨acc.intrinsics ++ recs.map recIntr, acc.poses ++ recs.map recPose,
   acc.focals ++ recs.map (·.focal)⟩

/-- All sixteen entries of one emitted intrinsic matrix. -/
def intrEntriesOk (A : Mat4) (r : CamRec) : Prop :=
  A 0 0 = r.focal ∧ A 1 1 = r.focal ∧ A 0 1 = 0 ∧ A 1 0 = 0 ∧
  A 0 2 = r.px ∧ A 1 2 = r.py ∧ A 2 2 = 1 ∧
  A 2 0 = 0 ∧ A 2 1 = 0 ∧ A 0 3 = 0 ∧ A 1 3 = 0 ∧ A 2 3 = 0 ∧
  A 3 0 = 0 ∧ A 3 1 = 0 ∧ A 3 2 = 0 ∧ A 3 3 = 1

/-!  A file holding some well-formed records, then a malformed record,
then further well-formed records. -/
/-- The opening lines of a malformed record: a filename-like line where
the focal length should follow two lines later, but float() fails
there. -/
def badRecord : List Line := [dummyLine, dummyLine, dummyLine]

def fileWithBad (recs1 recs2 : List CamRec) : List Line :=
  markerLine :: countLine (recs1.length + 1 + recs2.length) ::
    (bodyOf recs1 ++ (badRecord ++ bodyOf recs2))

/-- A one-camera file over an empty mask directory. -/
def mismatchEnv : Env :=
  { cameraLines := wellFormedFile [sampleRec], maskFiles := [],
    normalFiles := [], albedoFiles := none, certaintyFiles := none,
    readImg := fun _ _ => none }

/-- Concrete images for the C9 witness. -/
def rtImg : Img := constImg 1 1 (some 3) Dtype.u16 7

def rtMask : Img := constImg 1 1 none Dtype.u16 65535

def okImg : Img := constImg 1 1 (some 3) Dtype.u8 200

def okEnv : Env :=
  { cameraLines := wellFormedFile [sampleRec],
    maskFiles := ["m.png"], normalFiles := ["m.png"],
    albedoFiles := none, certaintyFiles := none,
    readImg := fun _ _ => some okImg }

def okManifest : Manifest :=
  ⟨1, 1, 1, 1/2, [1/2, 1/2, 1/2], true, eye4,
   [⟨"albedos/m.png", "normals/m.png", recPose sampleRec,
     recIntr sampleRec⟩]⟩

/-!  Manifest dimensions come from the last processed view. -/
def imgSmall : Img := constImg 1 1 (some 3) Dtype.u8 200

def imgBig : Img := constImg 2 2 (some 3) Dtype.u8 200

def twoEnv : Env :=
  { cameraLines := wellFormedFile [sampleRec, sampleRec],
    maskFiles := ["a.png", "b.png"], normalFiles := ["a.png", "b.png"],
    albedoFiles := none, certaintyFiles := none,
    readImg := fun _ s => if s = "a.png" then some imgSmall else some imgBig }

def twoManifest : Manifest :=
  ⟨2, 2, 1, 1/2, [1/2, 1/2, 1/2], true, eye4,
   [⟨"albedos/a.png", "normals/a.png", recPose sampleRec, recIntr sampleRec⟩,
    ⟨"albedos/b.png", "normals/b.png", recPose sampleRec,
     recIntr sampleRec⟩]⟩


/-!  Entry lemmas for the block matrices. -/
lemma withBlocks_rot (R : Mat3) (t : Vec3) (i j : Fin 3) :
    withBlocks R t i.castSucc j.castSucc = R i j := by
  have hi : ((i.castSucc : Fin 4) : ℕ) < 3 := by simp
  have hj : ((j.castSucc : Fin 4) : ℕ) < 3 := by simp
  simp [withBlocks, hi, hj]

lemma withBlocks_col (R : Mat3) (t : Vec3) (i : Fin 3) :
    withBlocks R t i.castSucc 3 = t i := by
  have hi : ((i.castSucc : Fin 4) : ℕ) < 3 := by simp
  have h3 : ¬ (((3 : Fin 4) : ℕ) < 3) := by decide
  simp [withBlocks, hi, h3]

lemma mkPose_rot (R : Mat3) (C : Vec3) (i j : Fin 3) :
    mkPose R C i.castSucc j.castSucc = R i j := withBlocks_rot ..

lemma mkPose_col (R : Mat3) (C : Vec3) (i : Fin 3) :
    mkPose R C i.castSucc 3 = -(mulVec3 R C i) := withBlocks_col ..

/-- C1: whenever the parser completes a camera record, the appended 4x4
pose matrix has its 3x3 rotation block equal to the parsed rotation
matrix R and its translation block equal to -R times the 3-vector
parsed from the camera-position line, the line re-read at backward
offset current-7 from the index just after the rotation block. -/
theorem parsed_record_pose_blocks (lines : List Line) (idx : ℕ)
    (f : ℚ) (intr pose : Mat4)
    (h : tryRecord lines idx = .ok (f, intr, pose)) :
    ∃ R C, rotAt lines idx = some R ∧ posAt lines idx = some C ∧
      (∀ i j : Fin 3, pose i.castSucc j.castSucc = R i j) ∧
      (∀ i : Fin 3, pose i.castSucc 3 = -(mulVec3 R C i)) := by
  unfold tryRecord at h
  cases hf : (lines.get? (idx + 2)).bind (·.asFloat) with
  | none => rw [hf] at h; exact absurd h (by simp)
  | some focal =>
  rw [hf] at h
  cases hpp : ppAt lines idx with
  | none => rw [hpp] at h; exact absurd h (by simp)
  | some pp =>
  obtain ⟨px, py⟩ := pp
  rw [hpp] at h
  cases hrot : rotAt lines idx with
  | none => rw [hrot] at h; exact absurd h (by simp)
  | some R =>
  rw [hrot] at h
  cases hct : lineToks lines (idx + 11 - 7) with
  | none => rw [hct] at h; exact absurd h (by simp)
  | some ctoks =>
  rw [hct] at h
  dsimp only at h
  cases hv : vec3OfToks ctoks with
  | none => rw [hv] at h; exact absurd h (by simp)
  | some C =>
  rw [hv] at h
  simp only [Except.ok.injEq, Prod.mk.injEq] at h
  obtain ⟨hfe, hie, hpe⟩ := h
  have hct4 : lineToks lines (idx + 4) = some ctoks := hct
  refine ⟨R, C, rfl, ?_, ?_, ?_⟩
  · simp [posAt, hct4, hv]
  · intro i j
    rw [← hpe]
    exact mkPose_rot R C i j
  · intro i
    rw [← hpe]
    exact mkPose_col R C i

/-- Witness for C1 at a concrete record. -/
theorem parsed_record_pose_blocks_witness :
    ∃ R C, rotAt (recordLines sampleRec) 0 = some R ∧
      posAt (recordLines sampleRec) 0 = some C ∧
      (∀ i j : Fin 3, recPose sampleRec i.castSucc j.castSucc = R i j) ∧
      (∀ i : Fin 3, recPose sampleRec i.castSucc 3 = -(mulVec3 R C i)) :=
  parsed_record_pose_blocks (recordLines sampleRec) 0 sampleRec.focal
    (recIntr sampleRec) (recPose sampleRec) rfl

/-!  The mask pipeline. -/
lemma collapse_dt (m : Img) :
    (if m.numch.isSome then channel0 m else m).dt = m.dt := by
  cases hm : m.numch <;> simp [hm, channel0]

lemma collapse_px0 (m : Img) (i j : ℕ) :
    (if m.numch.isSome then channel0 m else m).px i j 0 = m.px i j 0 := by
  cases hm : m.numch <;> simp [hm, channel0]

lemma maskPipeline_eq (m : Img) : maskPipeline m =
    astypeU16 (npMulScalar (npWhereGt (if m.numch.isSome then channel0 m else m)
      (if (if m.numch.isSome then channel0 m else m).dt = Dtype.u8
       then 125 else 30000)) 65535) := rfl

lemma maskPipeline_px (m : Img) (i j c : ℕ) :
    (maskPipeline m).px i j c =
      if (if m.dt = Dtype.u8 then 125 else 30000) < m.px i j 0
      then 65535 else 0 := by
  rw [maskPipeline_eq]
  show wrapDt (promoteDt Dtype.f64 (scalarDtype 65535))
      ((if (if (if m.numch.isSome then channel0 m else m).dt = Dtype.u8
            then (125 : ℕ) else 30000) <
            (if m.numch.isSome then channel0 m else m).px i j 0
        then 1 else 0) * 65535) % 65536 = _
  rw [collapse_dt, collapse_px0]
  by_cases hc : (if m.dt = Dtype.u8 then 125 else 30000) < m.px i j 0 <;>
    simp [hc, promoteDt, scalarDtype, wrapDt]

lemma maskPipeline_dt (m : Img) : (maskPipeline m).dt = Dtype.u16 := rfl

/-- C3: for every mask or mask-confidence image the repacker collapses
multi-channel input to channel 0, thresholds strictly at 125 for 8-bit
input and at 30000 for deeper input, and rescales so that every output
pixel is exactly 0 or 65535; an 8-bit mask that is 200 everywhere maps
to uniformly 65535 and one that is 50 everywhere maps to uniformly 0. -/
theorem mask_threshold_rescale :
    (∀ (m : Img) (i j c : ℕ),
      ((maskPipeline m).px i j c = 0 ∨ (maskPipeline m).px i j c = 65535) ∧
      (maskPipeline m).dt = Dtype.u16 ∧
      ((maskPipeline m).px i j c = 65535 ↔
        (if m.dt = Dtype.u8 then 125 else 30000) < m.px i j 0))
    ∧ (∀ h w nc i j c,
        (maskPipeline (constImg h w nc Dtype.u8 200)).px i j c = 65535)
    ∧ (∀ h w nc i j c,
        (maskPipeline (constImg h w nc Dtype.u8 50)).px i j c = 0) := by
  refine ⟨fun m i j c => ?_, fun h w nc i j c => ?_, fun h w nc i j c => ?_⟩
  · by_cases hc : (if m.dt = Dtype.u8 then 125 else 30000) < m.px i j 0 <;>
      simp [maskPipeline_px, maskPipeline_dt, hc]
  · simp [maskPipeline_px, constImg]
  · simp [maskPipeline_px, constImg]

/-- C8: when no albedo directory exists, the synthesized albedo is a
uint16 image of the same shape as the normal image with every pixel
equal to 65535, whatever the dtype of the normal image. -/
theorem synthesized_albedo_all_white (n : Img) :
    (whiteAlbedo n).dt = Dtype.u16 ∧ (whiteAlbedo n).h = n.h ∧
    (whiteAlbedo n).w = n.w ∧ (whiteAlbedo n).numch = n.numch ∧
    ∀ i j c, (whiteAlbedo n).px i j c = 65535 := by
  refine ⟨rfl, rfl, rfl, rfl, fun i j c => ?_⟩
  show wrapDt (promoteDt n.dt (scalarDtype 65535)) (1 * 65535) % 65536 = 65535
  cases hd : n.dt <;> simp [promoteDt, scalarDtype, wrapDt]

/-!  The projection-matrix converter. -/
lemma block3_withBlocks (R : Mat3) (t : Vec3) : block3 (withBlocks R t) = R := by
  funext i j
  exact withBlocks_rot R t i j

lemma col3_withBlocks (R : Mat3) (t : Vec3) : col3 (withBlocks R t) = t := by
  funext i
  exact withBlocks_col R t i

lemma load_K_Rt_snd (Kd Rd : Mat3) (td : Fin 4 → ℚ) :
    (load_K_Rt_from_P Kd Rd td).2 =
      withBlocks (transpose3 Rd) (fun i => td i.castSucc / td 3) := rfl

lemma load_K_Rt_fst (Kd Rd : Mat3) (td : Fin 4 → ℚ) :
    (load_K_Rt_from_P Kd Rd td).1 =
      embed4 (fun i j => Kd i j / Kd 2 2) := rfl

/-- C4 counterexample: at a concrete decomposition output the R entry
written to the JSON is the decomposed rotation itself, not its
transpose, so the claimed emission law fails. -/
theorem projection_emission_counterexample :
    ¬ (emitViewK npzKd npzRd npzTd 2 2 = 1 ∧
       emitViewR npzKd npzRd npzTd = transpose3 npzRd ∧
       (∀ i, emitViewT npzKd npzRd npzTd i =
         -(mulVec3 (transpose3 (emitViewR npzKd npzRd npzTd))
            (fun k => npzTd k.castSucc / npzTd 3) i))) := by
  intro h
  have h01 := congrFun (congrFun h.2.1 0) 1
  exact one_ne_zero (show (1 : ℚ) = 0 from h01)

/-- C4 amended: the converter normalizes K so that K[2,2] = 1, emits as
R the rotation matrix returned by the decomposition itself (the
transpose of the camera-to-world rotation block of the pose), and emits
as T the value -R times the normalized translation t[:3]/t[3], with R
the emitted rotation. -/
theorem projection_emission_values (Kd Rd : Mat3) (td : Fin 4 → ℚ)
    (hK : Kd 2 2 ≠ 0) :
    emitViewK Kd Rd td 2 2 = 1 ∧
    emitViewR Kd Rd td = Rd ∧
    (∀ i, emitViewT Kd Rd td i =
      -(mulVec3 Rd (fun k => td k.castSucc / td 3) i)) := by
  have hR : emitViewR Kd Rd td = Rd := by
    unfold emitViewR
    rw [load_K_Rt_snd, block3_withBlocks]
    rfl
  refine ⟨?_, hR, fun i => ?_⟩
  · show block3 (load_K_Rt_from_P Kd Rd td).1 2 2 = 1
    rw [load_K_Rt_fst]
    unfold embed4
    rw [show block3 (withBlocks (fun i j => Kd i j / Kd 2 2) zero3) =
          (fun i j => Kd i j / Kd 2 2) from block3_withBlocks ..]
    exact div_self hK
  · unfold emitViewT
    rw [load_K_Rt_snd, block3_withBlocks, col3_withBlocks]
    rfl

/-- Witness for the amended C4 at a concrete decomposition output. -/
theorem projection_emission_values_witness :
    emitViewK npzKd npzRd npzTd 2 2 = 1 ∧
    emitViewR npzKd npzRd npzTd = npzRd ∧
    (∀ i, emitViewT npzKd npzRd npzTd i =
      -(mulVec3 npzRd (fun k => npzTd k.castSucc / npzTd 3) i)) :=
  projection_emission_values npzKd npzRd npzTd
    (show (1 : ℚ) ≠ 0 from one_ne_zero)

/-!  Positional lemmas for the parse loop on encoded files. -/
lemma get?_block (pre rest l : List Line) (k : ℕ) (hk : k < l.length) :
    (pre ++ (l ++ rest)).get? (pre.length + k) = l.get? k := by
  rw [List.get?_append_right (Nat.le_add_right pre.length k),
    Nat.add_sub_cancel_left]
  exact List.get?_append hk

lemma recordLines_length (r : CamRec) : (recordLines r).length = 14 := rfl

/-- The record attempt at the start of an encoded record succeeds and
produces exactly the matrices determined by the record. -/
lemma tryRecord_record (pre rest : List Line) (r : CamRec) :
    tryRecord (pre ++ (recordLines r ++ rest)) pre.length =
      .ok (r.focal, recIntr r, recPose r) := by
  have h2 := get?_block pre rest (recordLines r) 2 (by rw [recordLines_length]; omega)
  have h3 := get?_block pre rest (recordLines r) 3 (by rw [recordLines_length]; omega)
  have h4 := get?_block pre rest (recordLines r) 4 (by rw [recordLines_length]; omega)
  have h8 := get?_block pre rest (recordLines r) 8 (by rw [recordLines_length]; omega)
  have h9 := get?_block pre rest (recordLines r) 9 (by rw [recordLines_length]; omega)
  have h10 := get?_block pre rest (recordLines r) 10 (by rw [recordLines_length]; omega)
  unfold tryRecord ppAt rotAt lineToks
  rw [show pre.length + 11 - 7 = pre.length + 4 from rfl]
  rw [h2, h3, h4, h8, h9, h10]
  obtain ⟨t1, t2, t3⟩ := r.T
  obtain ⟨a1, a2, a3⟩ := r.R0
  rfl

lemma recOut_nil (acc : ParsedCams) : recOut [] acc = acc := by
  cases acc; simp [recOut]

lemma parseFrom_out (lines : List Line) (fuel idx : ℕ) (acc : ParsedCams)
    (h : lines.length ≤ idx) : parseFrom lines fuel idx acc = acc := by
  cases fuel with
  | zero => rfl
  | succ fuel =>
    unfold parseFrom
    rw [List.get?_eq_none.2 h]

lemma bodyOf_cons (r : CamRec) (recs : List CamRec) :
    bodyOf (r :: recs) = recordLines r ++ bodyOf recs := by
  simp [bodyOf]

lemma bodyOf_length (recs : List CamRec) :
    (bodyOf recs).length = 14 * recs.length := by
  induction recs with
  | nil => rfl
  | cons r recs ih =>
    rw [bodyOf_cons, List.length_append, recordLines_length, ih,
      List.length_cons]
    ring

/-- One iteration of the loop at a line that opens a record that parses
successfully. -/
lemma parseFrom_succ_record (lines : List Line) (fuel idx : ℕ)
    (acc : ParsedCams) (l : Line) (hget : lines.get? idx = some l)
    (hbl : (l.isBlank || l.isComment) = false)
    (f : ℚ) (intr pose : Mat4)
    (htry : tryRecord lines idx = .ok (f, intr, pose)) :
    parseFrom lines (fuel + 1) idx acc =
      parseFrom lines fuel (idx + 14)
        ⟨acc.intrinsics ++ [intr], acc.poses ++ [pose], acc.focals ++ [f]⟩ := by
  conv_lhs => rw [parseFrom]
  rw [hget]
  simp only [hbl, Bool.false_eq_true, if_false, htry]

/-- Running the loop over a block of well-formed records consumes all of
them, appending their matrices in order, and continues just past the
block. -/
lemma parseFrom_records (recs : List CamRec) :
    ∀ (pre rest : List Line) (acc : ParsedCams) (fuel : ℕ),
      recs.length ≤ fuel →
      parseFrom (pre ++ (bodyOf recs ++ rest)) fuel pre.length acc =
        parseFrom (pre ++ (bodyOf recs ++ rest)) (fuel - recs.length)
          (pre.length + (bodyOf recs).length) (recOut recs acc) := by
  induction recs with
  | nil =>
    intro pre rest acc fuel _
    simp [bodyOf, recOut_nil]
  | cons r recs ih =>
    intro pre rest acc fuel hfuel
    cases fuel with
    | zero => exact absurd hfuel (by simp)
    | succ fuel =>
      have hassoc : pre ++ (bodyOf (r :: recs) ++ rest) =
          (pre ++ recordLines r) ++ (bodyOf recs ++ rest) := by
        rw [bodyOf_cons]; simp
      have hget : (pre ++ (bodyOf (r :: recs) ++ rest)).get? pre.length =
          some dummyLine := by
        rw [bodyOf_cons, List.append_assoc]
        have := get?_block pre (bodyOf recs ++ rest) (recordLines r) 0
          (by rw [recordLines_length]; omega)
        simpa using this
      have htry : tryRecord (pre ++ (bodyOf (r :: recs) ++ rest)) pre.length =
          .ok (r.focal, recIntr r, recPose r) := by
        rw [bodyOf_cons, List.append_assoc]
        exact tryRecord_record pre (bodyOf recs ++ rest) r
      rw [parseFrom_succ_record _ fuel pre.length acc dummyLine hget rfl _ _ _ htry]
      have hlen : pre.length + 14 = (pre ++ recordLines r).length := by
        rw [List.length_append, recordLines_length]
      rw [hlen, hassoc,
        ih (pre ++ recordLines r) rest _ fuel (by
          rw [List.length_cons] at hfuel; omega)]
      have hacc : recOut recs ⟨acc.intrinsics ++ [recIntr r],
          acc.poses ++ [recPose r], acc.focals ++ [r.focal]⟩ =
          recOut (r :: recs) acc := by
        simp [recOut]
      have hidx : (pre ++ recordLines r).length + (bodyOf recs).length =
          pre.length + (bodyOf (r :: recs)).length := by
        rw [List.length_append, recordLines_length, bodyOf_cons,
          List.length_append, recordLines_length]
        omega
      have hfuel2 : fuel - recs.length = fuel + 1 - (r :: recs).length := by
        rw [List.length_cons]; omega
      rw [hacc, hidx, ← hassoc, hfuel2]

lemma wellFormedFile_length (recs : List CamRec) :
    (wellFormedFile recs).length = 2 + 14 * recs.length := by
  simp [wellFormedFile, bodyOf_length]
  omega

/-- The full parse of a well-formed file with the header marker, the
count line, and the encoded records. -/
lemma parse_wellFormedFile (recs : List CamRec) :
    parse_camera_parameters (wellFormedFile recs) =
      .ok ⟨recs.map recIntr, recs.map recPose, recs.map (·.focal)⟩ := by
  have e1 : wellFormedFile recs =
      [markerLine, countLine recs.length] ++ (bodyOf recs ++ []) := by
    simp [wellFormedFile]
  have hrec := parseFrom_records recs [markerLine, countLine recs.length] []
    ⟨[], [], []⟩ ((wellFormedFile recs).length)
    (by rw [wellFormedFile_length]; omega)
  rw [← e1] at hrec
  have h2len : ([markerLine, countLine (recs.length : ℤ)] : List Line).length
      = 2 := rfl
  rw [h2len] at hrec
  have hout : parseFrom (wellFormedFile recs)
      ((wellFormedFile recs).length - recs.length)
      (2 + (bodyOf recs).length) (recOut recs ⟨[], [], []⟩) =
      recOut recs ⟨[], [], []⟩ := by
    apply parseFrom_out
    rw [wellFormedFile_length, bodyOf_length]
  unfold parse_camera_parameters findStart
  have hstart : findStartAux (wellFormedFile recs) 0 = .ok (some 2) := rfl
  rw [hstart]
  dsimp only [Except.map, Option.getD]
  rw [hrec, hout]
  simp [recOut]

lemma intrEntriesOk_recIntr (r : CamRec) : intrEntriesOk (recIntr r) r :=
  ⟨rfl, rfl, rfl, rfl, rfl, rfl, rfl, rfl, rfl, rfl, rfl, rfl, rfl, rfl, rfl, rfl⟩

/-- C5: for a well-formed camera file with N records the parser returns
exactly N intrinsic/pose pairs, and every returned intrinsic is the 4x4
identity-augmented matrix whose 3x3 block K has K[2,2] = 1,
K[0,0] = K[1,1] = focal, K[0,1] = K[1,0] = 0, and K[0,2], K[1,2] the
principal point of the record. -/
theorem wellformed_parse_counts_and_intrinsics (recs : List CamRec) :
    ∃ out, parse_camera_parameters (wellFormedFile recs) = .ok out ∧
      out.intrinsics.length = recs.length ∧ out.poses.length = recs.length ∧
      ∀ k, k < recs.length →
        ∃ r, recs.get? k = some r ∧
          out.intrinsics.get? k = some (recIntr r) ∧
          out.poses.get? k = some (recPose r) ∧
          intrEntriesOk (recIntr r) r := by
  refine ⟨_, parse_wellFormedFile recs, by simp, by simp, fun k hk => ?_⟩
  obtain ⟨r, hr⟩ : ∃ r, recs.get? k = some r := by
    cases hg : recs.get? k with
    | none => rw [List.get?_eq_none] at hg; omega
    | some r => exact ⟨r, rfl⟩
  have hr2 : recs[k]? = some r := by
    rw [← List.get?_eq_getElem?]
    exact hr
  exact ⟨r, hr, by simp [List.get?_eq_getElem?, hr2],
    by simp [List.get?_eq_getElem?, hr2], intrEntriesOk_recIntr r⟩

/-- Witness for C5 on a one-record file. -/
theorem wellformed_parse_counts_and_intrinsics_witness :
    ∃ out, parse_camera_parameters (wellFormedFile [sampleRec]) = .ok out ∧
      out.intrinsics.length = [sampleRec].length ∧
      out.poses.length = [sampleRec].length ∧
      ∀ k, k < [sampleRec].length →
        ∃ r, [sampleRec].get? k = some r ∧
          out.intrinsics.get? k = some (recIntr r) ∧
          out.poses.get? k = some (recPose r) ∧
          intrEntriesOk (recIntr r) r :=
  wellformed_parse_counts_and_intrinsics [sampleRec]

/-!  Determinants of the emitted intrinsics, needed because the Dataset
constructor inverts the stacked intrinsics before the count check. -/
lemma det4_lastRow_id (K : Mat3) (t : Vec3) :
    det4 (withBlocks K t) = det3 K := by
  have hm : (fun i j => withBlocks K t i.castSucc (Fin.succAbove 3 j)) = K := by
    funext i j
    rw [show (3 : Fin 4) = Fin.last 3 from rfl, Fin.succAbove_last]
    exact withBlocks_rot K t i j
  have e0 : withBlocks K t 3 0 = 0 := rfl
  have e1 : withBlocks K t 3 1 = 0 := rfl
  have e2 : withBlocks K t 3 2 = 0 := rfl
  have e3 : withBlocks K t 3 3 = 1 := rfl
  unfold det4
  rw [hm, e0, e1, e2, e3]
  ring

lemma det4_mkIntrinsic (f px py : ℚ) : det4 (mkIntrinsic f px py) = f * f := by
  rw [mkIntrinsic, embed4, det4_lastRow_id]
  show f * (f * 1 - py * 0) - 0 * (0 * 1 - py * 0) + px * (0 * 0 - f * 0)
      = f * f
  ring

/-- Evaluation of the Dataset constructor once the parse result is known
and the numpy inversion and focal accesses succeed. -/
lemma datasetInit_checks (lines : List Line) (out : ParsedCams) (n : ℕ)
    (hp : parse_camera_parameters lines = .ok out)
    (h1 : out.intrinsics ≠ [])
    (h2 : ∀ A ∈ out.intrinsics, det4 A ≠ 0)
    (h3 : out.focals ≠ []) :
    datasetInit lines n =
      if out.poses.length ≠ n then .error .count else .ok out := by
  unfold datasetInit
  rw [hp]
  dsimp only
  have hany : (out.intrinsics.any fun A => decide (det4 A = 0)) = false := by
    rw [List.any_eq_false]
    intro A hA
    simpa using h2 A hA
  rw [if_neg h1]
  simp only [hany, Bool.false_eq_true, if_false]
  rw [if_neg h3]

lemma tryRecord_fail_focal (lines : List Line) (idx : ℕ)
    (h : (lines.get? (idx + 2)).bind (·.asFloat) = none) :
    tryRecord lines idx = .error (none, none) := by
  unfold tryRecord
  rw [h]

/-- One iteration of the loop at a line opening a record whose parse
raises before the focal length is stored: the loop stops with the
accumulator unchanged. -/
lemma parseFrom_succ_fail (lines : List Line) (fuel idx : ℕ)
    (acc : ParsedCams) (l : Line) (hget : lines.get? idx = some l)
    (hbl : (l.isBlank || l.isComment) = false)
    (htry : tryRecord lines idx = .error (none, none)) :
    parseFrom lines (fuel + 1) idx acc = acc := by
  conv_lhs => rw [parseFrom]
  rw [hget]
  simp only [hbl, Bool.false_eq_true, if_false, htry, Option.toList,
    List.append_nil]

lemma fileWithBad_eq (recs1 recs2 : List CamRec) :
    fileWithBad recs1 recs2 =
      [markerLine, countLine (recs1.length + 1 + recs2.length)] ++
        (bodyOf recs1 ++ (badRecord ++ bodyOf recs2)) := by
  simp [fileWithBad]

lemma fileWithBad_length (recs1 recs2 : List CamRec) :
    (fileWithBad recs1 recs2).length =
      2 + 14 * recs1.length + 3 + 14 * recs2.length := by
  rw [fileWithBad_eq]
  simp [bodyOf_length, badRecord]
  omega

/-- Parsing a file with a malformed record in the middle stops at that
record: only the records before it are returned, whatever follows. -/
lemma parse_fileWithBad (recs1 recs2 : List CamRec) :
    parse_camera_parameters (fileWithBad recs1 recs2) =
      .ok ⟨recs1.map recIntr, recs1.map recPose, recs1.map (·.focal)⟩ := by
  have e1 := fileWithBad_eq recs1 recs2
  have hrec := parseFrom_records recs1
    [markerLine, countLine (recs1.length + 1 + recs2.length)]
    (badRecord ++ bodyOf recs2) ⟨[], [], []⟩
    ((fileWithBad recs1 recs2).length)
    (by rw [fileWithBad_length]; omega)
  rw [← e1] at hrec
  have h2len : ([markerLine,
      countLine ((recs1.length : ℤ) + 1 + recs2.length)] : List Line).length
      = 2 := rfl
  rw [h2len] at hrec
  obtain ⟨fl, hfl⟩ : ∃ fl,
      (fileWithBad recs1 recs2).length - recs1.length = fl + 1 :=
    ⟨(fileWithBad recs1 recs2).length - recs1.length - 1,
     by rw [fileWithBad_length]; omega⟩
  have hassoc : fileWithBad recs1 recs2 =
      ([markerLine, countLine (recs1.length + 1 + recs2.length)] ++
        bodyOf recs1) ++ (badRecord ++ bodyOf recs2) := by
    rw [fileWithBad_eq]
    simp
  have hidx : 2 + (bodyOf recs1).length =
      (([markerLine, countLine ((recs1.length : ℤ) + 1 + recs2.length)] :
        List Line) ++ bodyOf recs1).length := by
    simp
    omega
  have hget : (fileWithBad recs1 recs2).get?
      (2 + (bodyOf recs1).length) = some dummyLine := by
    rw [hassoc, hidx]
    have := get?_block
      ([markerLine, countLine (recs1.length + 1 + recs2.length)] ++
        bodyOf recs1) (bodyOf recs2) badRecord 0 (by simp [badRecord])
    simpa [badRecord] using this
  have hfocal : ((fileWithBad recs1 recs2).get?
      (2 + (bodyOf recs1).length + 2)).bind (·.asFloat) = none := by
    rw [hassoc]
    rw [show (2 : ℕ) + (bodyOf recs1).length + 2 =
      (([markerLine, countLine ((recs1.length : ℤ) + 1 + recs2.length)] :
        List Line) ++ bodyOf recs1).length + 2 by simp; omega]
    rw [get?_block _ (bodyOf recs2) badRecord 2 (by simp [badRecord])]
    rfl
  have hstop := parseFrom_succ_fail (fileWithBad recs1 recs2) fl
    (2 + (bodyOf recs1).length) (recOut recs1 ⟨[], [], []⟩) dummyLine hget rfl
    (tryRecord_fail_focal _ _ hfocal)
  unfold parse_camera_parameters findStart
  have hstart : findStartAux (fileWithBad recs1 recs2) 0 = .ok (some 2) := rfl
  rw [hstart]
  dsimp only [Except.map, Option.getD]
  rw [hrec, hfl, hstop]
  simp [recOut]

/-- C7: a malformed camera record aborts the whole parse loop at that
record, no later record is parsed even when well-formed, and the
partially filled list flows downstream guarded only by the final
count-mismatch check: the Dataset accepts it when the mask count equals
the truncated length and raises exactly the count error otherwise. -/
theorem bad_record_truncates_parse (recs1 recs2 : List CamRec)
    (hne : recs1 ≠ []) (hf : ∀ r ∈ recs1, r.focal ≠ 0) :
    datasetInit (fileWithBad recs1 recs2) recs1.length =
      .ok ⟨recs1.map recIntr, recs1.map recPose, recs1.map (·.focal)⟩ ∧
    ∀ n, n ≠ recs1.length →
      datasetInit (fileWithBad recs1 recs2) n = .error .count := by
  have hp := parse_fileWithBad recs1 recs2
  have h1 : (recs1.map recIntr : List Mat4) ≠ [] := by
    simpa using hne
  have h2 : ∀ A ∈ recs1.map recIntr, det4 A ≠ 0 := by
    intro A hA
    obtain ⟨r, hr, rfl⟩ := List.mem_map.1 hA
    rw [show recIntr r = mkIntrinsic r.focal r.px r.py from rfl,
      det4_mkIntrinsic]
    exact mul_ne_zero (hf r hr) (hf r hr)
  have h3 : (recs1.map (·.focal) : List ℚ) ≠ [] := by
    simpa using hne
  constructor
  · rw [datasetInit_checks _ _ recs1.length hp h1 h2 h3,
      if_neg (by simp)]
  · intro n hn
    rw [datasetInit_checks _ _ n hp h1 h2 h3,
      if_pos (by simp; omega)]

/-- Witness for C7: one good record, one bad record, one further good
record; the Dataset returns exactly the first record when the image
count is 1. -/
theorem bad_record_truncates_parse_witness :
    datasetInit (fileWithBad [sampleRec] [sampleRec]) 1 =
      .ok ⟨[recIntr sampleRec], [recPose sampleRec], [sampleRec.focal]⟩ :=
  (bad_record_truncates_parse [sampleRec] [sampleRec] (by simp)
    (by
      intro r hr
      rw [List.mem_singleton] at hr
      subst hr
      show (5 : ℚ) ≠ 0
      norm_num)).1

/-!  Dataset failure paths. -/
/-- When the parsed pose count mismatches the image count, the Dataset
constructor raises: one of the inversion, indexing, or count errors. -/
lemma datasetInit_error_of_count (lines : List Line) (out : ParsedCams)
    (n : ℕ) (hp : parse_camera_parameters lines = .ok out)
    (hne : out.poses.length ≠ n) :
    ∃ e, datasetInit lines n = .error e := by
  unfold datasetInit
  rw [hp]
  dsimp only
  by_cases h1 : out.intrinsics = []
  · exact ⟨.linalg, by rw [if_pos h1]⟩
  by_cases h2 : (out.intrinsics.any fun A => decide (det4 A = 0)) = true
  · exact ⟨.linalg, by rw [if_neg h1, if_pos h2]⟩
  by_cases h3 : out.focals = []
  · exact ⟨.index, by rw [if_neg h1, if_neg h2, if_pos h3]⟩
  · exact ⟨.count, by rw [if_neg h1, if_neg h2, if_neg h3, if_pos hne]⟩

/-- C2: when the number of parsed camera records differs from the number
of mask images on disk, the converter raises before writing any output
image or manifest file: it returns an error with an empty effect
list. -/
theorem count_mismatch_aborts_before_writes (env : Env) (out : ParsedCams)
    (hp : parse_camera_parameters env.cameraLines = .ok out)
    (hne : out.poses.length ≠ pngCount env) :
    ∃ e, NeuS_to_NeuS2 env = ([], Except.error e) := by
  obtain ⟨e, he⟩ :=
    datasetInit_error_of_count env.cameraLines out (pngCount env) hp hne
  refine ⟨.ds e, ?_⟩
  unfold NeuS_to_NeuS2
  rw [he]

/-- Witness for C2: one parsed camera, zero mask images. -/
theorem count_mismatch_aborts_before_writes_witness :
    ∃ e, NeuS_to_NeuS2 mismatchEnv = ([], Except.error e) :=
  count_mismatch_aborts_before_writes mismatchEnv
    ⟨[recIntr sampleRec], [recPose sampleRec], [sampleRec.focal]⟩
    (parse_wellFormedFile [sampleRec]) (by decide)

/-!  The pack/split round trip. -/
lemma promoteDt_self (d : Dtype) : promoteDt d d = d := by
  cases d <;> rfl

/-- C9: packing a 3-channel image with a same-sized single-channel mask
by concatenation and then splitting channels 0..2 and channel 3
recovers the image pixels and the mask pixels exactly, with the shape
and the common dtype preserved; this covers both the albedo plus
confidence pair and the normal plus mask pair. -/
theorem pack_split_roundtrip (a m : Img) (h3 : a.numch = some 3)
    (hh : a.h = m.h) (hw : a.w = m.w) (hdt : a.dt = m.dt) :
    ∃ p, addChannel a m = some p ∧ p.numch = some 4 ∧
      (takeChannels p 3).numch = some 3 ∧
      (takeChannels p 3).h = a.h ∧ (takeChannels p 3).w = a.w ∧
      (takeChannels p 3).dt = a.dt ∧
      (∀ i j c, c < 3 → (takeChannels p 3).px i j c = a.px i j c) ∧
      (channelAt p 3).numch = none ∧ (channelAt p 3).dt = a.dt ∧
      (∀ i j c, (channelAt p 3).px i j c = m.px i j 0) := by
  have hp : addChannel a m =
      some { h := a.h, w := a.w, numch := some 4,
             dt := promoteDt a.dt m.dt,
             px := fun i j k => if k < 3 then a.px i j k else m.px i j 0 } := by
    unfold addChannel
    rw [h3]
    dsimp only
    rw [if_pos ⟨hh, hw⟩]
  have hpd : promoteDt a.dt m.dt = a.dt := by
    rw [← hdt]
    exact promoteDt_self a.dt
  refine ⟨_, hp, rfl, ?_, rfl, rfl, ?_, ?_, rfl, ?_, ?_⟩
  · show some (min 4 3) = some 3
    rfl
  · show promoteDt a.dt m.dt = a.dt
    exact hpd
  · intro i j c hc
    show (if c < 3 then a.px i j c else m.px i j 0) = a.px i j c
    rw [if_pos hc]
  · show promoteDt a.dt m.dt = a.dt
    exact hpd
  · intro i j c
    show (if (3 : ℕ) < 3 then a.px i j 3 else m.px i j 0) = m.px i j 0
    rw [if_neg (by omega)]

/-- Witness for C9 at a concrete one-pixel pair. -/
theorem pack_split_roundtrip_witness :
    ∃ p, addChannel rtImg rtMask = some p ∧ p.numch = some 4 ∧
      (takeChannels p 3).numch = some 3 ∧
      (takeChannels p 3).h = rtImg.h ∧ (takeChannels p 3).w = rtImg.w ∧
      (takeChannels p 3).dt = rtImg.dt ∧
      (∀ i j c, c < 3 → (takeChannels p 3).px i j c = rtImg.px i j c) ∧
      (channelAt p 3).numch = none ∧ (channelAt p 3).dt = rtImg.dt ∧
      (∀ i j c, (channelAt p 3).px i j c = rtMask.px i j 0) :=
  pack_split_roundtrip rtImg rtMask rfl rfl rfl rfl

/-!  Structure of a successful converter run. -/
lemma frameAt_ok (albL normL : List String) (intrs poses : List Mat4)
    (i : ℕ) (f : Frame)
    (h : frameAt albL normL intrs poses i = .ok f) :
    ∃ a b ix p, albL.get? i = some a ∧ normL.get? i = some b ∧
      intrs.get? i = some ix ∧ poses.get? i = some p ∧
      f = ⟨"albedos/" ++ a, "normals/" ++ b, p, ix⟩ := by
  unfold frameAt at h
  cases ha : albL.get? i with
  | none => rw [ha] at h; exact absurd h (by simp)
  | some a =>
  rw [ha] at h
  cases hb : normL.get? i with
  | none => rw [hb] at h; exact absurd h (by simp)
  | some b =>
  rw [hb] at h
  cases hx : intrs.get? i with
  | none => rw [hx] at h; exact absurd h (by simp)
  | some ix =>
  rw [hx] at h
  cases hq : poses.get? i with
  | none => rw [hq] at h; exact absurd h (by simp)
  | some p =>
  rw [hq] at h
  simp only [Except.ok.injEq] at h
  exact ⟨a, b, ix, p, rfl, rfl, rfl, rfl, h.symm⟩

lemma framesUpTo_ok (albL normL : List String) (intrs poses : List Mat4) :
    ∀ (n : ℕ) (fs : List Frame),
      framesUpTo albL normL intrs poses n = .ok fs →
      fs.length = n ∧
      ∀ i, i < n →
        ∃ a b ix p, albL.get? i = some a ∧ normL.get? i = some b ∧
          intrs.get? i = some ix ∧ poses.get? i = some p ∧
          fs.get? i = some ⟨"albedos/" ++ a, "normals/" ++ b, p, ix⟩ := by
  intro n
  induction n with
  | zero =>
    intro fs h
    simp only [framesUpTo, Except.ok.injEq] at h
    subst h
    exact ⟨rfl, by omega⟩
  | succ n ih =>
    intro fs h
    unfold framesUpTo at h
    cases hrec : framesUpTo albL normL intrs poses n with
    | error e => rw [hrec] at h; exact absurd h (by simp)
    | ok fs0 =>
    rw [hrec] at h
    cases hfr : frameAt albL normL intrs poses n with
    | error e => rw [hfr] at h; exact absurd h (by simp)
    | ok f =>
    rw [hfr] at h
    simp only [Except.ok.injEq] at h
    subst h
    obtain ⟨hlen, hall⟩ := ih fs0 hrec
    refine ⟨by simp [hlen], fun i hi => ?_⟩
    by_cases hin : i < n
    · obtain ⟨a, b, ix, p, ha, hb, hx, hq, hg⟩ := hall i hin
      exact ⟨a, b, ix, p, ha, hb, hx, hq,
        by rw [List.get?_append (by omega : i < fs0.length), hg]⟩
    · have hieq : i = n := by omega
      subst hieq
      obtain ⟨a, b, ix, p, ha, hb, hx, hq, hf⟩ :=
        frameAt_ok albL normL intrs poses i f hfr
      refine ⟨a, b, ix, p, ha, hb, hx, hq, ?_⟩
      rw [← hlen, List.get?_concat_length, hf]

lemma viewsLoop_ok (env : Env) :
    ∀ (n : ℕ) (effs : List Eff) (hw : Option (ℕ × ℕ)),
      viewsLoop env n = (effs, .ok hw) →
      (n = 0 ∧ hw = none) ∨
      (∃ k, n = k + 1 ∧ ∃ es hh ww,
        processView env k = (es, .ok (hh, ww)) ∧ hw = some (hh, ww)) := by
  intro n effs hw h
  cases n with
  | zero =>
    left
    have h0 : viewsLoop env 0 = ([], .ok none) := rfl
    rw [h0] at h
    simp only [Prod.mk.injEq, Except.ok.injEq] at h
    exact ⟨rfl, h.2.symm⟩
  | succ k =>
    right
    refine ⟨k, rfl, ?_⟩
    unfold viewsLoop at h
    cases hv : viewsLoop env k with
    | mk effs0 res =>
    rw [hv] at h
    cases res with
    | error e => exact absurd h (by simp)
    | ok hw0 =>
    dsimp only at h
    cases hp : processView env k with
    | mk es r =>
    rw [hp] at h
    cases r with
    | error e => exact absurd h (by simp)
    | ok v =>
    obtain ⟨hh, ww⟩ := v
    dsimp only at h
    simp only [Prod.mk.injEq, Except.ok.injEq] at h
    exact ⟨es, hh, ww, rfl, h.2.symm⟩

lemma datasetInit_ok_parse (lines : List Line) (n : ℕ) (cams : ParsedCams)
    (h : datasetInit lines n = .ok cams) :
    parse_camera_parameters lines = .ok cams ∧ cams.poses.length = n := by
  unfold datasetInit at h
  cases hp : parse_camera_parameters lines with
  | error e => rw [hp] at h; exact absurd h (by simp)
  | ok out =>
  rw [hp] at h
  dsimp only at h
  split at h
  · exact absurd h (by simp)
  split at h
  · exact absurd h (by simp)
  split at h
  · exact absurd h (by simp)
  split at h
  · exact absurd h (by simp)
  · rename_i hcount
    simp only [Except.ok.injEq] at h
    subst h
    exact ⟨rfl, by omega⟩

/-- Decomposition of a successful NeuS_to_NeuS2 run into its stages. -/
lemma run_ok (env : Env) (effs : List Eff) (m : Manifest)
    (h : NeuS_to_NeuS2 env = (effs, .ok m)) :
    ∃ cams, datasetInit env.cameraLines (pngCount env) = .ok cams ∧
      ∃ effs0 hh ww frames,
        viewsLoop env (maskListing env).length = (effs0, .ok (some (hh, ww))) ∧
        pngCount env ≠ 0 ∧
        (maskListing env).length = cams.intrinsics.length ∧
        framesUpTo (albedoListing env) (normalListing env)
          cams.intrinsics cams.poses (maskListing env).length = .ok frames ∧
        m = ⟨ww, hh, 1, 1/2, [1/2, 1/2, 1/2], true, eye4, frames⟩ ∧
        effs = effs0 ++ [Eff.jsonWrite] := by
  unfold NeuS_to_NeuS2 at h
  cases hds : datasetInit env.cameraLines (pngCount env) with
  | error e => rw [hds] at h; exact absurd h (by simp)
  | ok cams =>
  rw [hds] at h
  dsimp only at h
  refine ⟨cams, rfl, ?_⟩
  unfold runAfterData at h
  dsimp only at h
  cases hv : viewsLoop env (maskListing env).length with
  | mk effs0 res =>
  rw [hv] at h
  cases res with
  | error e => exact absurd h (by simp)
  | ok hw =>
  cases hw with
  | none => exact absurd h (by simp)
  | some v =>
  obtain ⟨hh, ww⟩ := v
  dsimp only at h
  by_cases hpng : pngCount env = 0
  · rw [if_pos hpng] at h
    exact absurd h (by simp)
  rw [if_neg hpng] at h
  by_cases hnum : (maskListing env).length = cams.intrinsics.length
  · rw [if_neg (by omega)] at h
    cases hfr : framesUpTo (albedoListing env) (normalListing env)
        cams.intrinsics cams.poses (maskListing env).length with
    | error e => rw [hfr] at h; exact absurd h (by simp)
    | ok frames =>
    rw [hfr] at h
    dsimp only at h
    simp only [Prod.mk.injEq, Except.ok.injEq] at h
    exact ⟨effs0, hh, ww, frames, rfl, hpng, hnum, rfl, h.2.symm, h.1.symm⟩
  · rw [if_pos (by omega)] at h
    exact absurd h (by simp)

/-- C6: every emitted manifest carries the fixed global fields
aabb_scale = 1.0, scale = 0.5, offset = [0.5, 0.5, 0.5], from_na = true,
and n2w the 4x4 identity, and its frames array has exactly one entry
per mask-directory file, built in sorted-filename order, frame i
carrying the i-th parsed intrinsic and the i-th parsed pose. -/
theorem manifest_globals_and_frames (env : Env) (effs : List Eff)
    (m : Manifest) (h : NeuS_to_NeuS2 env = (effs, .ok m)) :
    m.aabb_scale = 1 ∧ m.scale = 1/2 ∧ m.offset = [1/2, 1/2, 1/2] ∧
    m.from_na = true ∧ m.n2w = eye4 ∧
    m.frames.length = (maskListing env).length ∧
    ∃ out, parse_camera_parameters env.cameraLines = .ok out ∧
      ∀ i, i < m.frames.length →
        ∃ fr a b ix p, m.frames.get? i = some fr ∧
          (albedoListing env).get? i = some a ∧
          (normalListing env).get? i = some b ∧
          out.intrinsics.get? i = some ix ∧
          out.poses.get? i = some p ∧
          fr = ⟨"albedos/" ++ a, "normals/" ++ b, p, ix⟩ := by
  obtain ⟨cams, hds, effs0, hh, ww, frames, hv, hpng, hnum, hfr, hm, hef⟩ :=
    run_ok env effs m h
  obtain ⟨hparse, hplen⟩ := datasetInit_ok_parse _ _ _ hds
  obtain ⟨hflen, hall⟩ := framesUpTo_ok _ _ _ _ _ _ hfr
  subst hm
  refine ⟨rfl, rfl, rfl, rfl, rfl, hflen, cams, hparse, fun i hi => ?_⟩
  obtain ⟨a, b, ix, p, ha, hb, hx, hq, hg⟩ := hall i (by
    rw [hflen] at hi
    exact hi)
  exact ⟨⟨"albedos/" ++ a, "normals/" ++ b, p, ix⟩, a, b, ix, p,
    hg, ha, hb, hx, hq, rfl⟩

/-!  A concrete successful conversion, used by the witnesses. -/
lemma sampleRec_focal : sampleRec.focal ≠ 0 := by
  show (5 : ℚ) ≠ 0
  norm_num

/-- Dataset construction succeeds on an encoded well-formed file with
nonzero focal lengths and a matching image count. -/
lemma datasetInit_wellFormed (recs : List CamRec) (n : ℕ) (hne : recs ≠ [])
    (hf : ∀ r ∈ recs, r.focal ≠ 0) (hn : recs.length = n) :
    datasetInit (wellFormedFile recs) n =
      .ok ⟨recs.map recIntr, recs.map recPose, recs.map (·.focal)⟩ := by
  have h2 : ∀ A ∈ recs.map recIntr, det4 A ≠ 0 := by
    intro A hA
    obtain ⟨r, hr, rfl⟩ := List.mem_map.1 hA
    rw [show recIntr r = mkIntrinsic r.focal r.px r.py from rfl,
      det4_mkIntrinsic]
    exact mul_ne_zero (hf r hr) (hf r hr)
  rw [datasetInit_checks _ _ n (parse_wellFormedFile recs)
    (by simpa using hne) h2 (by simpa using hne)]
  rw [if_neg (by simp [hn])]

lemma okEnv_run : NeuS_to_NeuS2 okEnv =
    ((viewsLoop okEnv 1).1 ++ [Eff.jsonWrite], .ok okManifest) := by
  have hds : datasetInit okEnv.cameraLines (pngCount okEnv) =
      .ok ⟨[sampleRec].map recIntr, [sampleRec].map recPose,
           [sampleRec].map (·.focal)⟩ :=
    datasetInit_wellFormed [sampleRec] (pngCount okEnv) (by simp)
      (by
        intro r hr
        rw [List.mem_singleton] at hr
        subst hr
        exact sampleRec_focal)
      (by decide)
  unfold NeuS_to_NeuS2
  rw [hds]
  rfl

/-- Witness for C6 on a concrete one-view conversion. -/
theorem manifest_globals_and_frames_witness :
    okManifest.aabb_scale = 1 ∧ okManifest.scale = 1/2 ∧
    okManifest.offset = [1/2, 1/2, 1/2] ∧
    okManifest.from_na = true ∧ okManifest.n2w = eye4 ∧
    okManifest.frames.length = (maskListing okEnv).length ∧
    ∃ out, parse_camera_parameters okEnv.cameraLines = .ok out ∧
      ∀ i, i < okManifest.frames.length →
        ∃ fr a b ix p, okManifest.frames.get? i = some fr ∧
          (albedoListing okEnv).get? i = some a ∧
          (normalListing okEnv).get? i = some b ∧
          out.intrinsics.get? i = some ix ∧
          out.poses.get? i = some p ∧
          fr = ⟨"albedos/" ++ a, "normals/" ++ b, p, ix⟩ :=
  manifest_globals_and_frames okEnv ((viewsLoop okEnv 1).1 ++ [Eff.jsonWrite])
    okManifest okEnv_run

lemma twoEnv_run : NeuS_to_NeuS2 twoEnv =
    ((viewsLoop twoEnv 2).1 ++ [Eff.jsonWrite], .ok twoManifest) := by
  have hds : datasetInit twoEnv.cameraLines (pngCount twoEnv) =
      .ok ⟨[sampleRec, sampleRec].map recIntr,
           [sampleRec, sampleRec].map recPose,
           [sampleRec, sampleRec].map (·.focal)⟩ :=
    datasetInit_wellFormed [sampleRec, sampleRec] (pngCount twoEnv)
      (by simp)
      (by
        intro r hr
        have : r = sampleRec := by simpa using hr
        subst this
        exact sampleRec_focal)
      (by decide)
  unfold NeuS_to_NeuS2
  rw [hds]
  rfl

/-- C10: the manifest's w and h equal the dimensions of the packed
normal image of the last entry of the sorted mask listing only: a
successful run determines (h, w) by the final view, an empty mask
directory yields an error and no output, and a run in which an earlier
view has different dimensions than the last still succeeds, showing the
earlier dimensions are never compared. -/
theorem manifest_dims_from_last_view :
    (∀ (env : Env) (effs : List Eff) (m : Manifest),
      NeuS_to_NeuS2 env = (effs, .ok m) →
      ∃ k, (maskListing env).length = k + 1 ∧
        ∃ es, processView env k = (es, .ok (m.h, m.w)))
    ∧ (∀ env : Env, env.maskFiles = [] →
        ∃ e, NeuS_to_NeuS2 env = ([], Except.error e))
    ∧ (∃ (env : Env) (effs : List Eff) (m : Manifest),
        NeuS_to_NeuS2 env = (effs, .ok m) ∧
        (maskListing env).length = 2 ∧
        ∃ es h0 w0, processView env 0 = (es, .ok (h0, w0)) ∧
          (h0 ≠ m.h ∨ w0 ≠ m.w)) := by
  refine ⟨?_, ?_, ?_⟩
  · intro env effs m h
    obtain ⟨cams, hds, effs0, hh, ww, frames, hv, hpng, hnum, hfr, hm, hef⟩ :=
      run_ok env effs m h
    rcases viewsLoop_ok env _ _ _ hv with ⟨hn0, hnone⟩ |
      ⟨k, hk, es, hh2, ww2, hp, hsome⟩
    · exact absurd hnone (by simp)
    · simp only [Option.some.injEq, Prod.mk.injEq] at hsome
      obtain ⟨he1, he2⟩ := hsome
      subst he1
      subst he2
      subst hm
      exact ⟨k, hk, es, hp⟩
  · intro env h0
    cases hds : datasetInit env.cameraLines (pngCount env) with
    | error e =>
      refine ⟨.ds e, ?_⟩
      unfold NeuS_to_NeuS2
      rw [hds]
    | ok cams =>
      have hml : maskListing env = [] := by
        rw [maskListing, h0]
        rfl
      refine ⟨.name, ?_⟩
      unfold NeuS_to_NeuS2
      rw [hds]
      dsimp only
      unfold runAfterData
      rw [hml]
      rfl
  · refine ⟨twoEnv, (viewsLoop twoEnv 2).1 ++ [Eff.jsonWrite], twoManifest,
      twoEnv_run, rfl, (processView twoEnv 0).1, 1, 1, ?_, ?_⟩
    · rfl
    · left
      show (1 : ℕ) ≠ 2
      omega

/-- Witness for C10: the two-view environment applied to the first part
of the theorem, showing the manifest dimensions are those of the last
view. -/
theorem manifest_dims_from_last_view_witness :
    ∃ k, (maskListing twoEnv).length = k + 1 ∧
      ∃ es, processView twoEnv k = (es, .ok (twoManifest.h, twoManifest.w)) :=
  manifest_dims_from_last_view.1 twoEnv
    ((viewsLoop twoEnv 2).1 ++ [Eff.jsonWrite]) twoManifest twoEnv_run

end Preprocess
